import Mathlib

/-!
Shallow embedding of `src/parse_canaero_log.py` (CANaerospace log decoder).

Conventions of the embedding:
* Python `bytes` are `List ℕ` whose elements are below 256 (every byte list
  produced inside the model comes from `hexPairsDecode`, which only builds
  values below 256).
* Python `float` values are modelled exactly: finite doubles as `ℚ`, plus
  the special values, in `PFloat`.  IEEE-754 bit patterns are decoded to the
  exact rational they denote.
* Python exceptions escaping a function are modelled by an explicit
  `.raises` result; `None` returns are `.noMatch`/`none`.
* `re.match` over `CAN_LINE_PATTERN` is modelled by a maximal-munch matcher:
  in this particular pattern every greedy piece (`[\d.]+`, `\s+`, `\d+`,
  `[0-9A-Fa-f]+`) is followed either by a character outside its own class or
  by the end of the pattern, so backtracking can never produce a match that
  maximal munch misses, and the two semantics coincide.
* `\d` and `\s` are modelled by their ASCII meaning (the log grammar only
  ever exercises ASCII).
-/

namespace CanLog

/-- Python value as returned by `decode_data_by_type` / stored in the output
record: an `int`, a `float`, or a `str`. -/
inductive PFloat where
  | finite (q : ℚ)
  | inf
  | neginf
  | nan
  deriving DecidableEq, Repr

inductive PyVal where
  | int (z : ℤ)
  | float (f : PFloat)
  | str (s : String)
  deriving DecidableEq, Repr

/-! ### Hexadecimal and decimal rendering helpers -/

/-- Uppercase hex digit for a value below 16. -/
def hexDigitUpper (n : ℕ) : Char :=
  if n < 10 then Char.ofNat ('0'.toNat + n) else Char.ofNat ('A'.toNat + (n - 10))

/-- Digits of `n` in base 16, uppercase, via structural fuel recursion (the
fuel `n + 1` always suffices: a number has at most `n + 1` hex digits). -/
def toHexUpperAux : ℕ → ℕ → List Char
  | 0, _ => []
  | fuel + 1, n =>
    if n < 16 then [hexDigitUpper n]
    else toHexUpperAux fuel (n / 16) ++ [hexDigitUpper (n % 16)]

/-- Digits of `n` in base 16, uppercase, no leading zeros (`"%X" % n`;
`0` renders as `"0"`). -/
def toHexUpper (n : ℕ) : List Char := toHexUpperAux (n + 1) n

/-- Python `"%X" % n`. -/
def pyHexX (n : ℕ) : String := (toHexUpper n).asString

/-- Python `"%02X" % n`: uppercase hex, zero-padded to at least two digits. -/
def pyHex02X (n : ℕ) : String :=
  let ds := toHexUpper n
  (if ds.length < 2 then '0' :: ds else ds).asString

/-- Python `bytes.hex().upper()`: two uppercase hex digits per byte. -/
def bytesHexUpper (bs : List ℕ) : String :=
  (bs.foldr (fun b acc => hexDigitUpper (b / 16 % 16) :: hexDigitUpper (b % 16) :: acc) []).asString

/-! ### Character classes of the line pattern (ASCII) -/

def pyIsDigit (c : Char) : Bool := c.isDigit

def pyIsSpace (c : Char) : Bool :=
  c = ' ' || c = '\t' || c = '\n' || c = '\r' || c = '\x0b' || c = '\x0c'

def pyIsHexDigit (c : Char) : Bool :=
  c.isDigit || ('A' ≤ c && c ≤ 'F') || ('a' ≤ c && c ≤ 'f')

def hexCharVal (c : Char) : ℕ :=
  if c.isDigit then c.toNat - '0'.toNat
  else if 'a' ≤ c then c.toNat - 'a'.toNat + 10
  else c.toNat - 'A'.toNat + 10

def natOfDigits (cs : List Char) : ℕ :=
  cs.foldl (fun a c => 10 * a + (c.toNat - '0'.toNat)) 0

/-- Python `int(s, 16)` for a non-empty hex-digit string. -/
def natOfHexDigits (cs : List Char) : ℕ :=
  cs.foldl (fun a c => 16 * a + hexCharVal c) 0

/-! ### The line pattern `\(([\d.]+)\)\s+can\d+\s+([0-9A-Fa-f]+)#([0-9A-Fa-f]+)` -/

/-- One-or-more greedy run of characters satisfying `p` (returns the run and
the rest); fails on an empty run.  Models a greedy `X+` whose follower is
outside the class `X`. -/
def takeWhile1 (p : Char → Bool) (cs : List Char) : Option (List Char × List Char) :=
  match cs.takeWhile p with
  | [] => none
  | run => some (run, cs.drop run.length)

def expectChar (c : Char) : List Char → Option (List Char)
  | [] => none
  | x :: xs => if x = c then some xs else none

/-- The three capture groups of `CAN_LINE_PATTERN`. -/
structure Groups where
  tsChars : List Char
  idChars : List Char
  payChars : List Char
  deriving DecidableEq, Repr

/-- `CAN_LINE_PATTERN.match(line)`: anchored at the start, trailing input
ignored.  Each `pN` is a (captured run, rest of input) pair. -/
def regexMatch (cs : List Char) : Option Groups := do
  let s1 ← expectChar '(' cs
  let p1 ← takeWhile1 (fun c => pyIsDigit c || c = '.') s1
  let s3 ← expectChar ')' p1.2
  let p2 ← takeWhile1 pyIsSpace s3
  let s5 ← expectChar 'c' p2.2
  let s6 ← expectChar 'a' s5
  let s7 ← expectChar 'n' s6
  let p3 ← takeWhile1 pyIsDigit s7
  let p4 ← takeWhile1 pyIsSpace p3.2
  let p5 ← takeWhile1 pyIsHexDigit p4.2
  let s11 ← expectChar '#' p5.2
  let p6 ← takeWhile1 pyIsHexDigit s11
  pure ⟨p1.1, p5.1, p6.1⟩

/-! ### Python `float()` and `bytes.fromhex()` on the matched groups -/

/-- Python `float(s)` restricted to the strings group 1 can produce
(non-empty strings over `[0-9.]`): valid iff there is at most one `'.'` and
at least one digit; the value is the exact decimal rational.  (Python rounds
to the nearest double; no claim depends on that rounding.)  `none` models a
`ValueError`. -/
def pyFloatOfTs (cs : List Char) : Option ℚ :=
  if cs.all (fun c => pyIsDigit c || c = '.') then
    match (cs.filter (fun c => c = '.')).length with
    | 0 => if cs.isEmpty then none else some (mkRat (natOfDigits cs) 1)
    | 1 =>
      let ip := cs.takeWhile (fun c => ¬ c = '.')
      let fp := (cs.dropWhile (fun c => ¬ c = '.')).tail
      if ip.isEmpty && fp.isEmpty then none
      else some (mkRat (natOfDigits ip * 10 ^ fp.length + natOfDigits fp) (10 ^ fp.length))
    | _ => none
  else none

/-- Python `bytes.fromhex`: fails (`ValueError`) on an odd number of hex
digits. -/
def hexPairsDecode : List Char → Option (List ℕ)
  | [] => some []
  | [_] => none
  | a :: b :: rest =>
    if pyIsHexDigit a && pyIsHexDigit b then
      (hexPairsDecode rest).map (fun bs => (16 * hexCharVal a + hexCharVal b) :: bs)
    else none

/-! ### `struct` formats and unpacking -/

inductive FmtItem where
  | pad               -- `x`: one pad byte, produces no value
  | sint (w : ℕ)      -- signed integer of `w` bytes (`b`, `h`, `i`)
  | uint (w : ℕ)      -- unsigned integer of `w` bytes (`B`, `H`, `I`)
  | f32               -- `f`: IEEE-754 single precision
  | f64               -- `d`: IEEE-754 double precision
  deriving DecidableEq, Repr

def FmtItem.size : FmtItem → ℕ
  | .pad => 1
  | .sint w => w
  | .uint w => w
  | .f32 => 4
  | .f64 => 8

/-- A `struct` format string: byte order plus item list. -/
structure PyFmt where
  little : Bool
  items : List FmtItem
  deriving DecidableEq, Repr

def fmtB (its : List FmtItem) : PyFmt := ⟨false, its⟩
def fmtL (its : List FmtItem) : PyFmt := ⟨true, its⟩

def calcsize (f : PyFmt) : ℕ := (f.items.map FmtItem.size).sum

/-- Big-endian value of a byte list. -/
def bytesBE (bs : List ℕ) : ℕ := bs.foldl (fun a b => 256 * a + b) 0

/-- Exact value of an IEEE-754 bit pattern with `ew` exponent bits and `mw`
mantissa bits.  The significand `M` and binary exponent `E` are assembled
first, then the exact rational `± M · 2^E` is produced as a single
normalized fraction. -/
def ieeeDecode (ew mw : ℕ) (bits : ℕ) : PFloat :=
  let m := bits % 2 ^ mw
  let e := bits / 2 ^ mw % 2 ^ ew
  let neg := bits / 2 ^ (mw + ew) % 2 = 1
  let bias : ℤ := ((2 ^ (ew - 1) - 1 : ℕ) : ℤ)
  if e = 2 ^ ew - 1 then
    if m = 0 then (if neg then .neginf else .inf) else .nan
  else
    let M : ℕ := if e = 0 then m else 2 ^ mw + m
    let E : ℤ := (if e = 0 then 1 else (e : ℤ)) - bias - (mw : ℤ)
    let sgn : ℤ := if neg then -1 else 1
    .finite (if 0 ≤ E then mkRat (sgn * ((M * 2 ^ E.toNat : ℕ) : ℤ)) 1
             else mkRat (sgn * (M : ℤ)) (2 ^ (-E).toNat))

/-- Value(s) contributed by one format item applied to its byte slice.  The
byte order applies per element; a pad byte contributes nothing. -/
def itemVal (little : Bool) (it : FmtItem) (bs : List ℕ) : List PyVal :=
  let ordered := if little then bs.reverse else bs
  match it with
  | .pad => []
  | .uint _ => [.int (bytesBE ordered : ℕ)]
  | .sint w =>
    let u := bytesBE ordered
    [.int (if 2 ^ (8 * w - 1) ≤ u then (u : ℤ) - ((2 ^ (8 * w) : ℕ) : ℤ) else (u : ℤ))]
  | .f32 => [.float (ieeeDecode 8 23 (bytesBE ordered))]
  | .f64 => [.float (ieeeDecode 11 52 (bytesBE ordered))]

def unpackGo (little : Bool) : List FmtItem → List ℕ → List PyVal
  | [], _ => []
  | it :: rest, bs => itemVal little it (bs.take it.size) ++ unpackGo little rest (bs.drop it.size)

/-- `struct.unpack(fmt, bs)`: `none` models `struct.error` (raised exactly
when the buffer length differs from `calcsize(fmt)`). -/
def structUnpack (f : PyFmt) (bs : List ℕ) : Option (List PyVal) :=
  if bs.length = calcsize f then some (unpackGo f.little f.items bs) else none

/-! ### The type table `DATA_TYPE_INFO` -/

/-- One table entry `(struct format or None, byte length, tag)`. -/
abbrev Entry := Option PyFmt × ℕ × String

/-- The individually defined entries for codes `0x00`–`0x1F`. -/
def DATA_TYPE_INFO_base : List (ℕ × Entry) := [
  (0x00, (none, 0, "NODATA")),
  (0x01, (some (fmtB [.uint 4]), 4, "ERROR")),
  (0x02, (some (fmtB [.f32]), 4, "FLOAT")),
  (0x03, (some (fmtB [.sint 4]), 4, "LONG")),
  (0x04, (some (fmtB [.uint 4]), 4, "ULONG")),
  (0x05, (some (fmtB [.uint 4]), 4, "BLONG")),
  (0x06, (some (fmtB [.sint 2]), 2, "SHORT")),
  (0x07, (some (fmtB [.uint 2]), 2, "USHORT")),
  (0x08, (some (fmtB [.uint 2]), 2, "BSHORT")),
  (0x09, (some (fmtB [.sint 1]), 1, "CHAR")),
  (0x0A, (some (fmtB [.uint 1]), 1, "UCHAR")),
  (0x0B, (some (fmtB [.uint 1]), 1, "BCHAR")),
  (0x0C, (some (fmtB [.sint 2, .sint 2]), 4, "SHORT2")),
  (0x0D, (some (fmtB [.uint 2, .uint 2]), 4, "USHORT2")),
  (0x0E, (some (fmtB [.uint 2, .uint 2]), 4, "BSHORT2")),
  (0x0F, (some (fmtB [.sint 1, .sint 1, .sint 1, .sint 1]), 4, "CHAR4")),
  (0x10, (some (fmtB [.uint 1, .uint 1, .uint 1, .uint 1]), 4, "UCHAR4")),
  (0x11, (some (fmtB [.uint 1, .uint 1, .uint 1, .uint 1]), 4, "BCHAR4")),
  (0x12, (some (fmtB [.sint 1, .sint 1]), 2, "CHAR2")),
  (0x13, (some (fmtB [.uint 1, .uint 1]), 2, "UCHAR2")),
  (0x14, (some (fmtB [.uint 1, .uint 1]), 2, "BCHAR2")),
  (0x15, (some (fmtB [.uint 4]), 4, "MEMID")),
  (0x16, (some (fmtB [.uint 4]), 4, "CHKSUM")),
  (0x17, (some (fmtB [.uint 1]), 1, "ACHAR")),
  (0x18, (some (fmtB [.uint 1, .uint 1]), 2, "ACHAR2")),
  (0x19, (some (fmtB [.uint 1, .uint 1, .uint 1, .uint 1]), 4, "ACHAR4")),
  (0x1A, (some (fmtB [.sint 1, .sint 1, .sint 1]), 3, "CHAR3")),
  (0x1B, (some (fmtB [.uint 1, .uint 1, .uint 1]), 3, "UCHAR3")),
  (0x1C, (some (fmtB [.uint 1, .uint 1, .uint 1]), 3, "BCHAR3")),
  (0x1D, (some (fmtB [.sint 1, .sint 1, .sint 1, .sint 1]), 4, "CHAR4")),
  (0x1E, (some (fmtB [.f64]), 8, "DOUBLEH")),
  (0x1F, (some (fmtL [.f64]), 8, "DOUBLEL"))]

/-- The full table: the base entries updated with the reserved range
`range(0x20, 0x63)` (67 codes) and the user-defined range
`range(0x64, 0xFF)` (155 codes); all keys are distinct, so association-list
lookup coincides with the Python dict. -/
def DATA_TYPE_INFO : List (ℕ × Entry) :=
  DATA_TYPE_INFO_base
    ++ (List.range' 0x20 67).map (fun t => (t, (some (fmtB [.pad]), 4, "RESVD")))
    ++ (List.range' 0x64 155).map (fun t => (t, (some (fmtB [.pad]), 4, "UDEF")))

/-- `dict.get` on an association list with distinct keys. -/
def dictGet {α : Type} (k : ℕ) : List (ℕ × α) → Option α
  | [] => none
  | (k2, v) :: rest => if k = k2 then some v else dictGet k rest

/-! ### `decode_data_by_type` -/

/-- Python `str()` of one unpacked element, as used by
`','.join(map(str, unpacked))`.  In the fixed table every multi-element
format is an integer format, so only the `int` case is ever exercised; the
other cases are unreachable there (Python's `repr` of floats is not
modelled). -/
def pyStrOfVal : PyVal → String
  | .int z => toString z
  | .float _ => ""
  | .str s => s

/-- `decode_data_by_type(raw_bytes, data_type_code, raw_mode)`.  The final
fallback `(slice hex, "decode_error_" ++ tag)` covers both a `struct.error`
from `unpack` and the `IndexError` that `unpacked[0]` raises when a pad-only
format unpacks to an empty tuple — both are caught by the bare `except`. -/
def decode_data_by_type (rawBytes : List ℕ) (dataTypeCode : ℕ) (rawMode : Bool) : PyVal × String :=
  if rawMode then (.str (bytesHexUpper rawBytes), "raw_0x" ++ pyHex02X dataTypeCode)
  else
    match dictGet dataTypeCode DATA_TYPE_INFO with
    | none => (.str (bytesHexUpper rawBytes), "unknown_0x" ++ pyHex02X dataTypeCode)
    | some (fmt, numBytes, dataType) =>
      let dataSlice := rawBytes.take numBytes
      match fmt with
      | none => (.str (bytesHexUpper dataSlice), dataType)
      | some f =>
        match structUnpack f dataSlice with
        | none => (.str (bytesHexUpper dataSlice), "decode_error_" ++ dataType)
        | some unpacked =>
          if 1 < unpacked.length then
            (.str (String.intercalate "," (unpacked.map pyStrOfVal)), dataType)
          else
            match unpacked with
            | [v] => (v, dataType)
            | _ => (.str (bytesHexUpper dataSlice), "decode_error_" ++ dataType)

/-! ### The parameter catalog `CANID_INFO` -/

def CANID_INFO : List (ℕ × String × String) := [
  (0x12C, ("Body Longitudinal Acceleration", "m/s²")),
  (0x12D, ("Body Lateral Acceleration", "m/s²")),
  (0x12E, ("Body Normal Acceleration", "m/s²")),
  (0x12F, ("Body Pitch Rate", "deg/s")),
  (0x130, ("Body Roll Rate", "deg/s")),
  (0x131, ("Body Yaw Rate", "deg/s")),
  (0x132, ("Rudder Position", "deg")),
  (0x133, ("Stabilizer Position", "deg")),
  (0x134, ("Elevator Position", "deg")),
  (0x135, ("Left Aileron Position", "deg")),
  (0x136, ("Right Aileron Position", "deg")),
  (0x137, ("Body Pitch Angle", "deg")),
  (0x138, ("Body Roll Angle", "deg")),
  (0x139, ("Body Sideslip", "deg")),
  (0x13A, ("Altitude Rate", "m/s")),
  (0x13B, ("Indicated Airspeed", "m/s")),
  (0x13C, ("True Airspeed", "m/s")),
  (0x13D, ("Calibrated Airspeed", "m/s")),
  (0x13E, ("Mach Number", "Mach")),
  (0x13F, ("Baro Correction", "hPa")),
  (0x140, ("Baro Corrected Altitude", "m")),
  (0x141, ("Heading Angle", "deg")),
  (0x142, ("Standard Altitude", "m")),
  (0x143, ("Total Air Temperature", "K")),
  (0x144, ("Static Air Temperature", "K")),
  (0x145, ("Differential Pressure", "hPa")),
  (0x146, ("Static Pressure", "hPa")),
  (0x147, ("Heading Rate", "deg/s")),
  (0x148, ("Port Side Angle Of Attack", "deg")),
  (0x149, ("Starbord Side Angle Of Attack", "deg")),
  (0x14A, ("Density Altitude", "m")),
  (0x14B, ("Turn Coordination Rate", "deg/s")),
  (0x14C, ("True Altitude", "m")),
  (0x14D, ("Wind Speed", "m/s")),
  (0x14E, ("Wind Direction", "deg")),
  (0x14F, ("Outside Air Temperature", "K")),
  (0x150, ("Body Normal Velocity", "m/s")),
  (0x151, ("Body Longitudinal Velocity", "m/s")),
  (0x152, ("Body Lateral Velocity", "m/s")),
  (0x153, ("Total Pressure", "hPa")),
  (0x154, ("Flaps position", "deg")),
  (0x156, ("Speed brake position", "deg")),
  (0x159, ("Vertical speed of the airmass", "m/s")),
  (0x15C, ("TEK altitude rate", "m/s")),
  (0x190, ("Pitch Control Position", "deg")),
  (0x191, ("Roll Control Position", "deg")),
  (0x192, ("Lateral Stick Trim Position Command", "deg")),
  (0x193, ("Yaw Control Position", "deg")),
  (0x194, ("Collective Control Position", "deg")),
  (0x195, ("Longitudinal Stick Trim Position Command", "deg")),
  (0x196, ("Directional Pedals Trim Position Command", "deg")),
  (0x197, ("Collective Lever Trim Position Command", "deg")),
  (0x198, ("Cyclic Control Stick Switches", "enum")),
  (0x199, ("Lateral Trim Speed", "deg/s")),
  (0x19A, ("Longitudinal Trim Speed", "deg/s")),
  (0x19B, ("Pedal Trim Speed", "deg/s")),
  (0x19C, ("Collective Trim Speed", "deg/s")),
  (0x19D, ("Nose Wheel Steering Handle Position", "deg")),
  (0x19E, ("Engine 1 Throttle Lever Position Ecs Channel A", "%")),
  (0x19F, ("Engine 2 Throttle Lever Position Ecs Channel A", "%")),
  (0x1AE, ("Flaps Lever Position", "deg")),
  (0x1AF, ("Slats Lever Position", "deg")),
  (0x1B0, ("Park Brake Lever Position", "enum")),
  (0x1B1, ("Speedbrake Lever Position", "deg")),
  (0x1B2, ("Throttle Max Lever Position", "%")),
  (0x1B3, ("Pilot Left Brake Pedal Position", "%")),
  (0x1B4, ("Pilot Right Brake Pedal Position", "%")),
  (0x1B5, ("Copilot Left Brake Pedal Position", "%")),
  (0x1B6, ("Copilot Right Brake Pedal Position", "%")),
  (0x1B7, ("Trim System Switches", "enum")),
  (0x1B8, ("Trim System Lights", "enum")),
  (0x1B9, ("Collective Control Stick Switches", "enum")),
  (0x1BA, ("Stick Shaker Stall Warning Device", "enum")),
  (0x1F4, ("Engine 1 N1 Ecs Channel A", "%")),
  (0x1F5, ("Engine 2 N1 Ecs Channel A", "%")),
  (0x294, ("Fuel Pump 1 Flow Rate", "L/h")),
  (0x295, ("Fuel Pump 2 Flow Rate", "L/h")),
  (0x3E8, ("Active Nav System Waypoint Latitude", "deg")),
  (0x3E9, ("Active Nav System Waypoint Longitude", "deg")),
  (0x3EA, ("Active Nav System Waypoint Height Above Ellipsoid", "m")),
  (0x3EB, ("Active Nav System Waypoint Altitude", "m")),
  (0x3EC, ("Active Nav System Ground Speed", "m/s")),
  (0x3ED, ("Active Nav System True Track", "deg")),
  (0x3EE, ("Active Nav System Magnetic Track", "deg")),
  (0x3EF, ("Active Nav System Cross Track Error", "m")),
  (0x3F0, ("Active Nav System Track Error Angle", "deg")),
  (0x3F1, ("Active Nav System Time To Go", "s")),
  (0x3F2, ("Active Nav System Estimated Time Of Arrival", "timestamp")),
  (0x3F3, ("Active Nav System Estimated Enroute Time", "s")),
  (0x3F4, ("Gps Aircraft Latitude", "deg")),
  (0x3F5, ("Gps Aircraft Longitude", "deg")),
  (0x3F6, ("Gps Aircraft Height Above Ellipsoid", "m")),
  (0x3F7, ("Gps Ground Speed", "m/s")),
  (0x3F8, ("Gps True Track", "deg")),
  (0x3F9, ("Gps Magnetic Track", "deg")),
  (0x3FA, ("Gps Cross Track Error", "m")),
  (0x3FB, ("Gps Track Error Angle", "deg")),
  (0x3FC, ("Gps Glideslope Deviation", "deg")),
  (0x3FD, ("Gps Predicted Raim", "enum")),
  (0x3FE, ("Gps Vertical Figure Of Merit", "m")),
  (0x3FF, ("Gps Horizontal Figure Of Merit", "m")),
  (0x400, ("Gps Mode Of Operation", "enum")),
  (0x320, ("Hydraulic System 1 Pressure", "kPa")),
  (0x321, ("Hydraulic System 2 Pressure", "kPa")),
  (0x4B0, ("Utc", "timestamp")),
  (0x4B1, ("Cabin Pressure", "hPa")),
  (0x4B2, ("Cabin Altitude", "m")),
  (0x4B3, ("Cabin Temperature", "°C")),
  (0x4B4, ("Longitudinal Center Of Gravity", "m")),
  (0x4B5, ("Lateral Center Of Gravity", "m")),
  (0x4B6, ("Date", "date"))]

/-- `CANID_INFO.get(can_id, ("Unknown", ""))`. -/
def canidLookup (n : ℕ) : String × String := (dictGet n CANID_INFO).getD ("Unknown", "")

/-! ### `parse_line` -/

/-- The output record (the dict built by `parse_line`).  `timestamp` keeps
the parsed epoch seconds: the code renders this instant as an ISO-8601 UTC
string, and that calendar rendering is not modelled further (no claim
inspects the rendered text).  `canIdNum` additionally retains the numeric
identifier the `can_id` rendering was built from, for stating claims about
identifiers. -/
structure Record where
  timestamp : ℚ
  can_id : String
  canIdNum : ℕ
  canIdDescr : String
  unit : String
  node_id : ℕ
  service_code : ℕ
  message_code : ℕ
  data_type_code : String
  data_type : String
  decoded_value : PyVal
  raw_data_hex : String
  deriving DecidableEq, Repr

/-- Result of `parse_line`: an uncaught exception, `None`, or a record. -/
inductive PResult where
  | raises
  | noMatch
  | parsed (r : Record)
  deriving DecidableEq, Repr

/-- Smallest epoch-seconds value rejected by
`datetime.fromtimestamp(·, tz=timezone.utc)` (start of year 10000; larger
values raise).  The sub-microsecond rounding at this exact boundary is not
modelled. -/
def MAX_TS : ℚ := 253402300800

/-- Record construction of `parse_line`'s success path. -/
def buildRecord (ts : ℚ) (canId : ℕ) (rawDataHex : List Char) (rawBytes : List ℕ)
    (rawMode : Bool) : Record :=
  let vd := decode_data_by_type (rawBytes.drop 4) (rawBytes.getD 1 0) rawMode
  let pu := canidLookup canId
  { timestamp := ts
    can_id := "0x" ++ pyHexX canId ++ " (" ++ toString canId ++ ")"
    canIdNum := canId
    canIdDescr := pu.1
    unit := pu.2
    node_id := rawBytes.getD 0 0
    service_code := rawBytes.getD 2 0
    message_code := rawBytes.getD 3 0
    data_type_code := "0x" ++ pyHex02X (rawBytes.getD 1 0)
    data_type := vd.2
    decoded_value := vd.1
    raw_data_hex := rawDataHex.asString }

/-- `parse_line(line, raw_mode)`.  `float(group(1))` raises `ValueError` on
an invalid float text, and `datetime.fromtimestamp` raises when the value is
out of the representable range — both before the guarded `bytes.fromhex`,
whose `ValueError` alone is caught and turned into `None`. -/
def parse_line (line : String) (rawMode : Bool) : PResult :=
  match regexMatch line.data with
  | none => .noMatch
  | some g =>
    match pyFloatOfTs g.tsChars with
    | none => .raises
    | some ts =>
      if MAX_TS ≤ ts then .raises
      else
        match hexPairsDecode (g.payChars.map Char.toUpper) with
        | none => .noMatch
        | some rawBytes =>
          if rawBytes.length < 4 then .noMatch
          else .parsed (buildRecord ts (natOfHexDigits g.idChars)
                         (g.payChars.map Char.toUpper) rawBytes rawMode)

/-! ### `parse_log_file` -/

/-- Python `s.split()[0]` for a string with at least one non-space
character. -/
def pySplitFirst (s : String) : String :=
  ((s.data.dropWhile pyIsSpace).takeWhile (fun c => !pyIsSpace c)).asString

/-- The filter test of the emit loop: without a filter set every record
passes; with one, `parsed["can_id"].split()[0] in filter_set`. -/
def passesFilter (filterSet : Option (List String)) (r : Record) : Bool :=
  match filterSet with
  | none => true
  | some ss => decide (pySplitFirst r.can_id ∈ ss)

/-- The per-line loop of `parse_log_file`: returns the rows written, in
order, paired with `true` when the pass completed (an uncaught exception
from `parse_line` aborts the pass: nothing further is written). -/
def processLines (filterSet : Option (List String)) (rawMode : Bool) :
    List String → List Record × Bool
  | [] => ([], true)
  | l :: ls =>
    match parse_line l rawMode with
    | .raises => ([], false)
    | .noMatch => processLines filterSet rawMode ls
    | .parsed r =>
      let rest := processLines filterSet rawMode ls
      if passesFilter filterSet r then (r :: rest.1, rest.2) else rest

/-- `parse_log_file` over an in-memory line list: builds the filter set of
rendered identifiers (`None` when `filter_can_ids` is falsy, i.e. absent or
empty) and runs the loop.  The Python set is modelled by the list of
rendered strings — only membership is ever used. -/
def parse_log_file (lines : List String) (filterCanIds : Option (List ℕ))
    (rawMode : Bool) : List Record × Bool :=
  let filterSet : Option (List String) :=
    match filterCanIds with
    | some ids => if ids.isEmpty then none else some (ids.map (fun i => "0x" ++ pyHexX i))
    | none => none
  processLines filterSet rawMode lines

/-! ## Helper lemmas -/

theorem dictGet_append_left {α : Type} {k : ℕ} {v : α} {l1 : List (ℕ × α)} (l2 : List (ℕ × α))
    (h : dictGet k l1 = some v) : dictGet k (l1 ++ l2) = some v := by
  induction l1 with
  | nil => exact absurd h (by simp [dictGet])
  | cons p t ih =>
    obtain ⟨k2, w⟩ := p
    by_cases hk : k = k2
    · simp only [dictGet, if_pos hk] at h ⊢; exact h
    · simp only [dictGet, if_neg hk] at h ⊢; exact ih h

theorem dictGet_append_right {α : Type} {k : ℕ} {l1 : List (ℕ × α)} (l2 : List (ℕ × α))
    (h : dictGet k l1 = none) : dictGet k (l1 ++ l2) = dictGet k l2 := by
  induction l1 with
  | nil => rfl
  | cons p t ih =>
    obtain ⟨k2, w⟩ := p
    by_cases hk : k = k2
    · simp only [dictGet, if_pos hk] at h; exact Option.noConfusion h
    · simp only [dictGet, if_neg hk] at h ⊢; exact ih h

theorem dictGet_mem {α : Type} {k : ℕ} {v : α} :
    ∀ {l : List (ℕ × α)}, dictGet k l = some v → (k, v) ∈ l := by
  intro l
  induction l with
  | nil => intro h; exact absurd h (by simp [dictGet])
  | cons p t ih =>
    obtain ⟨k2, w⟩ := p
    intro h
    by_cases hk : k = k2
    · simp only [dictGet, if_pos hk] at h
      subst hk
      cases Option.some.inj h
      exact List.mem_cons_self _ _
    · simp only [dictGet, if_neg hk] at h
      exact List.mem_cons_of_mem _ (ih h)

theorem dictGet_range'_mem {α : Type} (c : α) :
    ∀ (len start k : ℕ), start ≤ k → k < start + len →
      dictGet k ((List.range' start len).map (fun t => (t, c))) = some c := by
  intro len
  induction len with
  | zero => intro start k h1 h2; omega
  | succ n ih =>
    intro start k h1 h2
    show dictGet k ((start :: List.range' (start + 1) n).map (fun t => (t, c))) = some c
    by_cases hk : k = start
    · simp only [List.map_cons, dictGet, if_pos hk]
    · simp only [List.map_cons, dictGet, if_neg hk]
      exact ih (start + 1) k (by omega) (by omega)

theorem dictGet_range'_none {α : Type} (c : α) :
    ∀ (len start k : ℕ), start + len ≤ k →
      dictGet k ((List.range' start len).map (fun t => (t, c))) = none := by
  intro len
  induction len with
  | zero => intro start k _; rfl
  | succ n ih =>
    intro start k h
    show dictGet k ((start :: List.range' (start + 1) n).map (fun t => (t, c))) = none
    simp only [List.map_cons, dictGet, if_neg (by omega : ¬ k = start)]
    exact ih (start + 1) k (by omega)

theorem dictGet_base_none (k : ℕ) (h : 0x20 ≤ k) : dictGet k DATA_TYPE_INFO_base = none := by
  simp only [DATA_TYPE_INFO_base, dictGet]
  repeat rw [if_neg (by omega)]

theorem lookup_resvd (k : ℕ) (h1 : 0x20 ≤ k) (h2 : k ≤ 0x62) :
    dictGet k DATA_TYPE_INFO = some (some (fmtB [.pad]), 4, "RESVD") := by
  unfold DATA_TYPE_INFO
  rw [List.append_assoc, dictGet_append_right _ (dictGet_base_none k h1)]
  exact dictGet_append_left _ (dictGet_range'_mem _ 67 0x20 k h1 (by omega))

theorem lookup_udef (k : ℕ) (h1 : 0x64 ≤ k) (h2 : k ≤ 0xFE) :
    dictGet k DATA_TYPE_INFO = some (some (fmtB [.pad]), 4, "UDEF") := by
  unfold DATA_TYPE_INFO
  rw [List.append_assoc, dictGet_append_right _ (dictGet_base_none k (by omega)),
    dictGet_append_right _ (dictGet_range'_none _ 67 0x20 k (by omega))]
  exact dictGet_range'_mem _ 155 0x64 k h1 (by omega)

/-- Decoding under a `'>x'` (pad-only, 4-byte) table entry always ends in the
`except` fallback: `unpack` fails unless the slice has exactly one byte, and
then `unpacked[0]` raises `IndexError` on the empty tuple. -/
theorem structUnpack_pad (bs : List ℕ) :
    structUnpack (fmtB [.pad]) bs = if bs.length = 1 then some [] else none := by
  simp [structUnpack, calcsize, fmtB, FmtItem.size, unpackGo, itemVal]

theorem decode_pad_entry (payload : List ℕ) (code : ℕ) (tag : String)
    (h : dictGet code DATA_TYPE_INFO = some (some (fmtB [.pad]), 4, tag)) :
    decode_data_by_type payload code false =
      (.str (bytesHexUpper (payload.take 4)), "decode_error_" ++ tag) := by
  unfold decode_data_by_type
  rw [h]
  by_cases hl : (payload.take 4).length = 1
  · simp [structUnpack_pad, hl]
  · simp only [structUnpack_pad]
    rw [if_neg hl]
    rfl

/-- Table invariant check for one entry: an active (pad-free) format's
`calcsize` equals the declared byte length. -/
def entryOk (p : ℕ × Entry) : Bool :=
  match p.2.1 with
  | some f => !(f.items.all (fun i => !(i == FmtItem.pad))) || (calcsize f == p.2.2.1)
  | none => true

set_option maxRecDepth 16384 in
theorem table_entries_ok : DATA_TYPE_INFO.all entryOk = true := by decide

theorem hexCharVal_hexDigitUpper : ∀ k < 16, hexCharVal (hexDigitUpper k) = k := by decide

theorem natOfHexDigits_concat (xs : List Char) (c : Char) :
    natOfHexDigits (xs ++ [c]) = 16 * natOfHexDigits xs + hexCharVal c := by
  simp [natOfHexDigits, List.foldl_append]

theorem toHexUpperAux_val : ∀ (fuel n : ℕ), n < fuel →
    natOfHexDigits (toHexUpperAux fuel n) = n := by
  intro fuel
  induction fuel with
  | zero => intro n h; omega
  | succ fuel ih =>
    intro n h
    show natOfHexDigits (if n < 16 then [hexDigitUpper n]
      else toHexUpperAux fuel (n / 16) ++ [hexDigitUpper (n % 16)]) = n
    by_cases h16 : n < 16
    · rw [if_pos h16]
      show 16 * 0 + hexCharVal (hexDigitUpper n) = n
      rw [hexCharVal_hexDigitUpper n h16]
      omega
    · rw [if_neg h16, natOfHexDigits_concat, ih (n / 16) (by omega),
        hexCharVal_hexDigitUpper (n % 16) (by omega)]
      omega

theorem natOfHexDigits_toHexUpper (n : ℕ) : natOfHexDigits (toHexUpper n) = n :=
  toHexUpperAux_val (n + 1) n (by omega)

theorem pyHexX_inj {a b : ℕ} (h : pyHexX a = pyHexX b) : a = b := by
  have hd : toHexUpper a = toHexUpper b := congrArg String.data h
  have := congrArg natOfHexDigits hd
  rwa [natOfHexDigits_toHexUpper, natOfHexDigits_toHexUpper] at this

/-- Membership of a rendered identifier in the rendered filter set is
membership of the identifier in the numeric set. -/
theorem mem_rendered_set {a : ℕ} {ids : List ℕ} :
    ("0x" ++ pyHexX a) ∈ ids.map (fun i => "0x" ++ pyHexX i) ↔ a ∈ ids := by
  constructor
  · intro h
    obtain ⟨i, hi, heq⟩ := List.mem_map.mp h
    have hd := congrArg String.data heq
    rw [String.data_append, String.data_append] at hd
    have : pyHexX i = pyHexX a := String.ext (List.append_cancel_left hd)
    rwa [← pyHexX_inj this]
  · intro h
    exact List.mem_map.mpr ⟨a, h, rfl⟩

theorem hexDigitUpper_not_space : ∀ k < 16, pyIsSpace (hexDigitUpper k) = false := by decide

theorem toHexUpperAux_not_space : ∀ (fuel n : ℕ) (c : Char), n < fuel →
    c ∈ toHexUpperAux fuel n → pyIsSpace c = false := by
  intro fuel
  induction fuel with
  | zero => intro n c h; omega
  | succ fuel ih =>
    intro n c h hc
    rw [show toHexUpperAux (fuel + 1) n = (if n < 16 then [hexDigitUpper n]
        else toHexUpperAux fuel (n / 16) ++ [hexDigitUpper (n % 16)]) from rfl] at hc
    by_cases h16 : n < 16
    · rw [if_pos h16] at hc
      rcases List.mem_singleton.mp hc with rfl
      exact hexDigitUpper_not_space n h16
    · rw [if_neg h16] at hc
      rcases List.mem_append.mp hc with hmem | hmem
      · exact ih (n / 16) c (by omega) hmem
      · rcases List.mem_singleton.mp hmem with rfl
        exact hexDigitUpper_not_space (n % 16) (by omega)

theorem takeWhile_append_of_all {p : Char → Bool} {l1 l2 : List Char}
    (h : ∀ c ∈ l1, p c = true) : (l1 ++ l2).takeWhile p = l1 ++ l2.takeWhile p := by
  induction l1 with
  | nil => rfl
  | cons a t ih =>
    rw [List.cons_append, List.takeWhile_cons, if_pos (h a (List.mem_cons_self a t)),
      ih (fun c hc => h c (List.mem_cons_of_mem a hc))]
    rfl

/-- The first whitespace-separated word of a freshly built record's `can_id`
rendering is `0x` followed by the identifier's uppercase hex digits. -/
theorem buildRecord_can_id_word (ts : ℚ) (canId : ℕ) (rdh : List Char) (bs : List ℕ)
    (raw : Bool) :
    pySplitFirst (buildRecord ts canId rdh bs raw).can_id = "0x" ++ pyHexX canId := by
  show pySplitFirst ("0x" ++ pyHexX canId ++ " (" ++ toString canId ++ ")") = _
  unfold pySplitFirst
  apply String.ext
  rw [String.data_append, String.data_append, String.data_append, String.data_append,
    show "0x".data = ['0', 'x'] from rfl, show " (".data = [' ', '('] from rfl,
    show ")".data = [')'] from rfl]
  simp only [List.append_assoc, List.cons_append, List.nil_append]
  rw [List.dropWhile_cons, if_neg (by decide), List.takeWhile_cons, if_pos (by decide),
    List.takeWhile_cons, if_pos (by decide),
    takeWhile_append_of_all (fun c hc => by
      simp only [Bool.not_eq_true']
      exact toHexUpperAux_not_space (canId + 1) canId c (by omega) hc),
    List.takeWhile_cons, if_neg (by decide), List.append_nil]
  rfl

/-- Inversion of `parse_line`'s success path: every parsed record was built
by `buildRecord`. -/
theorem parse_line_parsed_inv {l : String} {raw : Bool} {r : Record}
    (h : parse_line l raw = .parsed r) :
    ∃ g ts bs, regexMatch l.data = some g ∧
      r = buildRecord ts (natOfHexDigits g.idChars) (g.payChars.map Char.toUpper) bs raw := by
  unfold parse_line at h
  split at h
  next => exact PResult.noConfusion h
  next g hm =>
    split at h
    next => exact PResult.noConfusion h
    next ts hts =>
      split at h
      next => exact PResult.noConfusion h
      next hmax =>
        split at h
        next => exact PResult.noConfusion h
        next bs hbs =>
          split at h
          next => exact PResult.noConfusion h
          next hlen => exact ⟨g, ts, bs, hm, (PResult.parsed.inj h).symm⟩

/-- Every record produced by `parse_line` satisfies the `can_id`-rendering
invariant used by the pipeline's filter. -/
theorem parsed_can_id_word {l : String} {raw : Bool} {r : Record}
    (h : parse_line l raw = .parsed r) :
    pySplitFirst r.can_id = "0x" ++ pyHexX r.canIdNum := by
  obtain ⟨g, ts, bs, _, hr⟩ := parse_line_parsed_inv h
  subst hr
  exact buildRecord_can_id_word ts (natOfHexDigits g.idChars) (g.payChars.map Char.toUpper)
    bs raw

/-- The loop without a filter set: when no line raises, it completes and
writes exactly the records of the parsed lines, in order. -/
theorem processLines_none_emits (raw : Bool) :
    ∀ lines : List String, (∀ l ∈ lines, parse_line l raw ≠ .raises) →
    processLines none raw lines =
      (lines.filterMap (fun l => match parse_line l raw with
        | .parsed r => some r
        | _ => none), true) := by
  intro lines
  induction lines with
  | nil => intro _; rfl
  | cons l ls ih =>
    intro hok
    have hok_ls : ∀ x ∈ ls, parse_line x raw ≠ .raises :=
      fun x hx => hok x (List.mem_cons_of_mem l hx)
    rw [List.filterMap_cons]
    cases hp : parse_line l raw with
    | raises => exact absurd hp (hok l (List.mem_cons_self l ls))
    | noMatch => simp only [processLines, hp]; exact ih hok_ls
    | parsed r =>
      simp only [processLines, hp]
      have hpass : passesFilter none r = true := rfl
      rw [if_pos hpass, ih hok_ls]

/-- The loop with a filter set of strings: when no line raises, it completes
and writes exactly the parsed records whose rendered identifier is in the
set, in order. -/
theorem processLines_some_emits (raw : Bool) (ss : List String) :
    ∀ lines : List String, (∀ l ∈ lines, parse_line l raw ≠ .raises) →
    processLines (some ss) raw lines =
      (lines.filterMap (fun l => match parse_line l raw with
        | .parsed r => if pySplitFirst r.can_id ∈ ss then some r else none
        | _ => none), true) := by
  intro lines
  induction lines with
  | nil => intro _; rfl
  | cons l ls ih =>
    intro hok
    have hok_ls : ∀ x ∈ ls, parse_line x raw ≠ .raises :=
      fun x hx => hok x (List.mem_cons_of_mem l hx)
    rw [List.filterMap_cons]
    cases hp : parse_line l raw with
    | raises => exact absurd hp (hok l (List.mem_cons_self l ls))
    | noMatch => simp only [processLines, hp]; exact ih hok_ls
    | parsed r =>
      simp only [processLines, hp]
      by_cases hin : pySplitFirst r.can_id ∈ ss
      · have hpass : passesFilter (some ss) r = true := by
          simp [passesFilter, hin]
        rw [if_pos hpass, ih hok_ls, if_pos hin]
      · have hpass : ¬ passesFilter (some ss) r = true := by
          simp [passesFilter, hin]
        rw [if_neg hpass, ih hok_ls, if_neg hin]

theorem takeWhile1_run_ne_nil {p : Char → Bool} {cs : List Char} {pr : List Char × List Char}
    (h : takeWhile1 p cs = some pr) : pr.1 ≠ [] := by
  unfold takeWhile1 at h
  cases htw : cs.takeWhile p with
  | nil => rw [htw] at h; exact Option.noConfusion h
  | cons a t =>
    rw [htw] at h
    cases Option.some.inj h
    simp

/-! ## Theorems -/

set_option maxRecDepth 8192 in
/-- C4: for every data-type code (a byte) and every payload, raw-mode decode
returns the uppercase hex of the full payload as value and the status
`raw_0x<code>` with a two-digit uppercase hex code, without consulting the
type table (the raw branch precedes the lookup). -/
theorem c4_raw_mode_bypasses_table (code : ℕ) (payload : List ℕ) (h : code < 256) :
    decode_data_by_type payload code true =
      (.str (bytesHexUpper payload), "raw_0x" ++ pyHex02X code) ∧
    (pyHex02X code).length = 2 := by
  refine ⟨rfl, ?_⟩
  have hall : ∀ c < 256, (pyHex02X c).length = 2 := by decide
  exact hall code h

/-- Witness for C4 at code `0x02`, payload `[0x3F, 0x80]`. -/
theorem c4_raw_mode_bypasses_table_witness :
    decode_data_by_type [0x3F, 0x80] 0x02 true = (.str "3F80", "raw_0x02") ∧
    (pyHex02X 0x02).length = 2 := by
  have h := c4_raw_mode_bypasses_table 0x02 [0x3F, 0x80] (by decide)
  exact ⟨h.1.trans (by decide), h.2⟩

set_option maxRecDepth 8192 in
/-- C5: codes `0x63` and `0xFF` are absent from the type table, and non-raw
decode of any payload under them returns the uppercase hex of the full
payload with status `unknown_0x63` / `unknown_0xFF` — never a reserved or
user-defined status. -/
theorem c5_unknown_codes (payload : List ℕ) :
    decode_data_by_type payload 0x63 false = (.str (bytesHexUpper payload), "unknown_0x63") ∧
    decode_data_by_type payload 0xFF false = (.str (bytesHexUpper payload), "unknown_0xFF") ∧
    dictGet 0x63 DATA_TYPE_INFO = none ∧ dictGet 0xFF DATA_TYPE_INFO = none ∧
    ("unknown_0x63" : String) ≠ "RESVD" ∧ ("unknown_0x63" : String) ≠ "UDEF" ∧
    ("unknown_0xFF" : String) ≠ "RESVD" ∧ ("unknown_0xFF" : String) ≠ "UDEF" := by
  refine ⟨rfl, rfl, by decide, by decide, by decide, by decide, by decide, by decide⟩

/-- C8: the three IEEE-754 patterns decode to the exact scalar 1.0: code
`0x02` (big-endian single) on `3F800000`, code `0x1F` (little-endian double)
on `000000000000F03F`, and code `0x1E` (big-endian double) on the
byte-reversed pattern `3FF0000000000000`. -/
theorem c8_ieee_one_decodes :
    decode_data_by_type [0x3F, 0x80, 0x00, 0x00] 0x02 false =
      (.float (.finite 1), "FLOAT") ∧
    decode_data_by_type [0x00, 0x00, 0x00, 0x00, 0x00, 0x00, 0xF0, 0x3F] 0x1F false =
      (.float (.finite 1), "DOUBLEL") ∧
    decode_data_by_type [0x3F, 0xF0, 0x00, 0x00, 0x00, 0x00, 0x00, 0x00] 0x1E false =
      (.float (.finite 1), "DOUBLEH") := by
  refine ⟨by decide, by decide, by decide⟩

set_option maxRecDepth 8192 in
/-- Counterexample to C1: `parse_line` does not return a result on every
input — on the line `(..) can0 1#AB` the pattern matches with timestamp
group `..`, and `float('..')` raises an uncaught `ValueError`. -/
theorem c1_counterexample :
    parse_line "(..) can0 1#AB" false = .raises ∧
    regexMatch "(..) can0 1#AB".data = some ⟨['.', '.'], ['1'], ['A', 'B']⟩ ∧
    pyFloatOfTs ['.', '.'] = none := by
  refine ⟨by decide, by decide, by decide⟩

set_option maxRecDepth 8192 in
/-- Counterexample to C2: non-raw decode under a reserved code returns
status `decode_error_RESVD`, not the bare reserved tag `RESVD` (the
`'>x'` format never unpacks to a usable tuple, so the `except` fallback
always fires); likewise `decode_error_UDEF` for the user-defined range. -/
theorem c2_counterexample :
    decode_data_by_type [1, 2, 3, 4, 5] 0x20 false = (.str "01020304", "decode_error_RESVD") ∧
    ("decode_error_RESVD" : String) ≠ "RESVD" ∧
    decode_data_by_type [1, 2, 3, 4, 5] 0x64 false = (.str "01020304", "decode_error_UDEF") ∧
    ("decode_error_UDEF" : String) ≠ "UDEF" := by
  refine ⟨by decide, by decide, by decide, by decide⟩

set_option maxRecDepth 8192 in
/-- Counterexample to C3: the line
`(99999999999999999999999) can0 1#01020304` matches the grammar and its
payload decodes to 4 bytes, yet no record is produced:
`datetime.fromtimestamp` raises on the out-of-range timestamp. -/
theorem c3_counterexample :
    parse_line "(99999999999999999999999) can0 1#01020304" false = .raises ∧
    regexMatch "(99999999999999999999999) can0 1#01020304".data =
      some ⟨"99999999999999999999999".data, ['1'], "01020304".data⟩ ∧
    hexPairsDecode ("01020304".data.map Char.toUpper) = some [1, 2, 3, 4] := by
  refine ⟨by decide, by decide, by decide⟩

set_option maxRecDepth 8192 in
/-- Counterexample to C7: with filter set `{0x154}` over a two-line input
whose first line makes `parse_line` raise, nothing at all is emitted — even
though the second line alone yields a record with identifier `0x154`, which
the claim says must be emitted. -/
theorem c7_counterexample :
    (parse_log_file ["(.) can0 1#01020304", "(1690000000.0) can0 154#0A02B6F3FC00"]
        (some [0x154]) false).1 = [] ∧
    ((parse_log_file ["(1690000000.0) can0 154#0A02B6F3FC00"] (some [0x154]) false).1.map
        Record.canIdNum) = [0x154] := by
  refine ⟨by decide, by decide⟩

set_option maxRecDepth 8192 in
/-- Counterexample to C9: a line that matches the grammar in every other
respect but has an empty payload hex after `#` is rejected by the pattern
itself (the payload group requires at least one hex digit), so the
extractor returns no-match instead of succeeding with a zero-length
payload. -/
theorem c9_counterexample :
    regexMatch "(1690000000.0) can0 123#".data = none ∧
    parse_line "(1690000000.0) can0 123#" false = .noMatch := by
  refine ⟨by decide, by decide⟩

/-- C2 (amended): for every code in `[0x20, 0x62]` and every payload,
non-raw decode returns the uppercase hex of the payload truncated to 4
bytes as value, with status `decode_error_RESVD` (the reserved tag behind
the decode-error prefix, not the bare tag); likewise `decode_error_UDEF`
for every code in `[0x64, 0xFE]`. -/
theorem c2_reserved_udef_decode (code : ℕ) (payload : List ℕ) :
    (0x20 ≤ code → code ≤ 0x62 →
      decode_data_by_type payload code false =
        (.str (bytesHexUpper (payload.take 4)), "decode_error_RESVD")) ∧
    (0x64 ≤ code → code ≤ 0xFE →
      decode_data_by_type payload code false =
        (.str (bytesHexUpper (payload.take 4)), "decode_error_UDEF")) :=
  ⟨fun h1 h2 => decode_pad_entry payload code "RESVD" (lookup_resvd code h1 h2),
   fun h1 h2 => decode_pad_entry payload code "UDEF" (lookup_udef code h1 h2)⟩

/-- Witness for C2 (amended) at codes `0x21` and `0x65`, payload `[0xAA]`. -/
theorem c2_reserved_udef_decode_witness :
    decode_data_by_type [0xAA] 0x21 false = (.str "AA", "decode_error_RESVD") ∧
    decode_data_by_type [0xAA] 0x65 false = (.str "AA", "decode_error_UDEF") := by
  have h1 := (c2_reserved_udef_decode 0x21 [0xAA]).1 (by decide) (by decide)
  have h2 := (c2_reserved_udef_decode 0x65 [0xAA]).2 (by decide) (by decide)
  exact ⟨h1.trans (by decide), h2.trans (by decide)⟩

/-- C6: for every code whose table entry carries an active numeric layout
(a format with no pad item), decoding a payload strictly shorter than the
declared byte length does not raise: it returns the uppercase hex of the
available bytes and status `decode_error_<tag>`. -/
theorem c6_short_payload_decode_error (code : ℕ) (f : PyFmt) (n : ℕ) (tag : String)
    (payload : List ℕ)
    (hf : dictGet code DATA_TYPE_INFO = some (some f, n, tag))
    (hact : ∀ i ∈ f.items, i ≠ FmtItem.pad)
    (hlen : payload.length < n) :
    decode_data_by_type payload code false =
      (.str (bytesHexUpper payload), "decode_error_" ++ tag) := by
  have hcs : calcsize f = n := by
    have hmem := dictGet_mem hf
    have hok := List.all_eq_true.mp table_entries_ok _ hmem
    simp only [entryOk] at hok
    rcases Bool.or_eq_true_iff.mp hok with hbad | hgood
    · exfalso
      rw [Bool.not_eq_true'] at hbad
      rcases List.all_eq_false.mp hbad with ⟨i, hi, hnp⟩
      exact hact i hi (by simpa using hnp)
    · exact Nat.eq_of_beq_eq_true (by simpa using hgood)
  have htake : payload.take n = payload := List.take_of_length_le (by omega)
  unfold decode_data_by_type
  rw [hf]
  simp only [htake]
  have hunpack : structUnpack f payload = none := by
    unfold structUnpack
    rw [if_neg (by omega)]
  simp [hunpack]

/-- Witness for C6 at code `0x02` (4-byte float) with the 1-byte payload
`[0x3F]`. -/
theorem c6_short_payload_decode_error_witness :
    decode_data_by_type [0x3F] 0x02 false = (.str "3F", "decode_error_FLOAT") := by
  have h := c6_short_payload_decode_error 0x02 (fmtB [.f32]) 4 "FLOAT" [0x3F]
    (by decide) (by decide) (by decide)
  exact h.trans (by decide)

/-- C1 (amended): on any structural mismatch of the line pattern,
`parse_line` returns no-match and does not raise; and on a matching line
whose timestamp text is a valid in-range float, malformed payload hex also
yields no-match.  (A matching line whose timestamp text is not a valid
float, or is out of the datetime range, raises instead — see the
counterexample.) -/
theorem c1_no_match_no_raise (s : String) (raw : Bool) :
    (regexMatch s.data = none → parse_line s raw = .noMatch) ∧
    (∀ g ts, regexMatch s.data = some g → pyFloatOfTs g.tsChars = some ts → ts < MAX_TS →
      hexPairsDecode (g.payChars.map Char.toUpper) = none → parse_line s raw = .noMatch) := by
  constructor
  · intro hm
    unfold parse_line
    rw [hm]
  · intro g ts hm hts hlt hhex
    unfold parse_line
    simp only [hm, hts, if_neg (not_le.mpr hlt), hhex]

/-- Witness for C1 (amended): a non-matching line, and a matching line with
odd-length payload hex, both return no-match. -/
theorem c1_no_match_no_raise_witness :
    parse_line "hello" false = .noMatch ∧
    parse_line "(1.0) can0 1#ABC" false = .noMatch :=
  ⟨(c1_no_match_no_raise "hello" false).1 (by decide),
   (c1_no_match_no_raise "(1.0) can0 1#ABC" false).2 ⟨['1', '.', '0'], ['1'], ['A', 'B', 'C']⟩
     (mkRat 10 10) (by decide) (by decide) (by decide) (by decide)⟩

/-- C3 (amended): for every line matching the pattern whose timestamp text
parses as an in-range float and whose payload hex decodes to at least 4
bytes, exactly one record is produced, with node id = byte 0, data-type
code = byte 1 (rendered `0x%02X`), service code = byte 2, message code =
byte 3, and the remaining bytes (index 4 on) passed to the payload decoder;
a payload shorter than 4 bytes yields no record. -/
theorem c3_header_fields (s : String) (g : Groups) (ts : ℚ) (bs : List ℕ) (raw : Bool)
    (hm : regexMatch s.data = some g) (hts : pyFloatOfTs g.tsChars = some ts)
    (hrange : ts < MAX_TS)
    (hbs : hexPairsDecode (g.payChars.map Char.toUpper) = some bs) :
    (4 ≤ bs.length →
      parse_line s raw = .parsed (buildRecord ts (natOfHexDigits g.idChars)
          (g.payChars.map Char.toUpper) bs raw) ∧
      (buildRecord ts (natOfHexDigits g.idChars) (g.payChars.map Char.toUpper) bs raw).node_id
          = bs.getD 0 0 ∧
      (buildRecord ts (natOfHexDigits g.idChars) (g.payChars.map Char.toUpper) bs raw).service_code
          = bs.getD 2 0 ∧
      (buildRecord ts (natOfHexDigits g.idChars) (g.payChars.map Char.toUpper) bs raw).message_code
          = bs.getD 3 0 ∧
      (buildRecord ts (natOfHexDigits g.idChars) (g.payChars.map Char.toUpper) bs raw).data_type_code
          = "0x" ++ pyHex02X (bs.getD 1 0) ∧
      (buildRecord ts (natOfHexDigits g.idChars) (g.payChars.map Char.toUpper) bs raw).decoded_value
          = (decode_data_by_type (bs.drop 4) (bs.getD 1 0) raw).1 ∧
      (buildRecord ts (natOfHexDigits g.idChars) (g.payChars.map Char.toUpper) bs raw).data_type
          = (decode_data_by_type (bs.drop 4) (bs.getD 1 0) raw).2) ∧
    (bs.length < 4 → parse_line s raw = .noMatch) := by
  constructor
  · intro h4
    refine ⟨?_, rfl, rfl, rfl, rfl, rfl, rfl⟩
    unfold parse_line
    simp only [hm, hts, if_neg (not_le.mpr hrange), hbs,
      if_neg (by omega : ¬ bs.length < 4)]
  · intro hlt
    unfold parse_line
    simp only [hm, hts, if_neg (not_le.mpr hrange), hbs, if_pos hlt]

/-- Witness for C3 (amended) on the line
`(1690000000.0) can0 154#0A02B6F3FC00` (6-byte frame). -/
theorem c3_header_fields_witness :
    parse_line "(1690000000.0) can0 154#0A02B6F3FC00" false =
      .parsed (buildRecord (mkRat 16900000000 10) (natOfHexDigits ['1', '5', '4'])
        ("0A02B6F3FC00".data.map Char.toUpper) [0x0A, 0x02, 0xB6, 0xF3, 0xFC, 0x00] false) :=
  ((c3_header_fields "(1690000000.0) can0 154#0A02B6F3FC00"
    ⟨"1690000000.0".data, ['1', '5', '4'], "0A02B6F3FC00".data⟩
    (mkRat 16900000000 10) [0x0A, 0x02, 0xB6, 0xF3, 0xFC, 0x00] false
    (by decide) (by decide) (by decide) (by decide)).1 (by decide)).1

/-- C9 (amended): the line pattern requires a non-empty payload hex string —
every successful match has at least one hex digit in the payload group, so a
line that is empty after `#` is rejected as a grammar no-match (without
raising) rather than producing a zero-length payload.  (Even length is
enforced not by the pattern but by the later hex decoding.) -/
theorem c9_match_payload_nonempty (s : String) (g : Groups)
    (h : regexMatch s.data = some g) : g.payChars ≠ [] := by
  simp only [regexMatch, bind, Option.bind_eq_some, Option.pure_def,
    Option.some.injEq] at h
  obtain ⟨s1, h1, p1, h2, s3, h3, p2, h4, s5, h5, s6, h6, s7, h7, p3, h8, p4, h9,
    p5, h10, s11, h11, p6, h12, hg⟩ := h
  have hne := takeWhile1_run_ne_nil h12
  rw [← hg]
  exact hne

/-- Witness for C9 (amended): the match of `(1.0) can0 1#AB` has the
non-empty payload group `AB`. -/
theorem c9_match_payload_nonempty_witness : (['A', 'B'] : List Char) ≠ [] :=
  c9_match_payload_nonempty "(1.0) can0 1#AB" ⟨['1', '.', '0'], ['1'], ['A', 'B']⟩
    (by decide)

/-- C7 (amended): given a non-empty filter set of identifiers, over any
input in which no line raises, the pipeline completes in a single ordered
pass and a record is emitted iff its frame identifier is a member of the
filter set: the output is exactly the in-order filtering of the per-line
records. -/
theorem c7_filter_membership (lines : List String) (ids : List ℕ) (raw : Bool)
    (hne : ids ≠ []) (hok : ∀ l ∈ lines, parse_line l raw ≠ .raises) :
    parse_log_file lines (some ids) raw =
      (lines.filterMap (fun l => match parse_line l raw with
        | .parsed r => if r.canIdNum ∈ ids then some r else none
        | _ => none), true) := by
  have hie : ids.isEmpty = false := by
    cases ids with
    | nil => exact absurd rfl hne
    | cons a t => rfl
  show processLines (if ids.isEmpty then none
      else some (ids.map fun i => "0x" ++ pyHexX i)) raw lines = _
  rw [hie]
  show processLines (some (ids.map fun i => "0x" ++ pyHexX i)) raw lines = _
  rw [processLines_some_emits raw _ lines hok]
  refine congrArg (fun x => (x, true)) ?_
  apply List.filterMap_congr
  intro l hl
  cases hp : parse_line l raw with
  | raises => exact absurd hp (hok l hl)
  | noMatch => rfl
  | parsed r =>
    show (if pySplitFirst r.can_id ∈ ids.map (fun i => "0x" ++ pyHexX i)
        then some r else none) = (if r.canIdNum ∈ ids then some r else none)
    rw [parsed_can_id_word hp]
    by_cases hin : r.canIdNum ∈ ids
    · rw [if_pos (mem_rendered_set.mpr hin), if_pos hin]
    · rw [if_neg (fun hc => hin (mem_rendered_set.mp hc)), if_neg hin]

set_option maxRecDepth 8192 in
/-- Witness for C7 (amended) on a three-line input (one record with
identifier `0x154`, one with `0x130`, one junk line) filtered by
`{0x154}`. -/
theorem c7_filter_membership_witness :
    parse_log_file ["(1690000000.0) can0 154#0A02B6F3FC00", "(1.5) can0 130#0A070001FF",
        "junk"] (some [0x154]) false =
      (["(1690000000.0) can0 154#0A02B6F3FC00", "(1.5) can0 130#0A070001FF",
        "junk"].filterMap (fun l => match parse_line l false with
        | .parsed r => if r.canIdNum ∈ [0x154] then some r else none
        | _ => none), true) :=
  c7_filter_membership _ [0x154] false (by decide) (by decide)

/-- C10: supplying an empty collection of filter identifiers behaves exactly
as if no filter had been provided (the falsy check treats them alike):
moreover, in that case every successfully assembled record is emitted, in
order. -/
theorem c10_empty_filter_no_filter (lines : List String) (raw : Bool) :
    parse_log_file lines (some []) raw = parse_log_file lines none raw ∧
    ((∀ l ∈ lines, parse_line l raw ≠ .raises) →
      (parse_log_file lines (some []) raw).1 =
        lines.filterMap (fun l => match parse_line l raw with
          | .parsed r => some r
          | _ => none)) := by
  refine ⟨rfl, fun hok => ?_⟩
  show (processLines none raw lines).1 = _
  rw [processLines_none_emits raw lines hok]

set_option maxRecDepth 8192 in
/-- Witness for C10 on a two-line input. -/
theorem c10_empty_filter_no_filter_witness :
    parse_log_file ["(1.5) can0 130#0A070001FF", "junk"] (some []) false =
      parse_log_file ["(1.5) can0 130#0A070001FF", "junk"] none false ∧
    (parse_log_file ["(1.5) can0 130#0A070001FF", "junk"] (some []) false).1 =
      ["(1.5) can0 130#0A070001FF", "junk"].filterMap (fun l =>
        match parse_line l false with
        | .parsed r => some r
        | _ => none) :=
  ⟨(c10_empty_filter_no_filter _ false).1,
   (c10_empty_filter_no_filter _ false).2 (by decide)⟩

end CanLog
